import Mathlib

/-!
Verification of the screen-rendering engine (`edit/writer.go`) and the
list-indexing module (`eval/list.go`) of the elvish shell, against its
natural-language specification.

Machine integers are modelled as `Int` (Go `int`); Go's truncated integer
division and modulus are `Int.tdiv` and `Int.tmod`.  Go `nil` pointers and
run-time panics are modelled with `Option` (`none` = nil / panic, as noted
at each definition).
-/

set_option maxRecDepth 10000

/-! ### Cell and buffer model (edit/writer.go, lines 15-123) -/

/-- A cell is an indivisible unit on the screen (writer.go lines 17-21).
`width` is a Go `byte`; it is kept as `Int` here, its value is always the
result of `wcwidth` (1 or 2) or the literal 1 used for spaces. -/
structure cell where
  rune : Char
  width : Int
  attr : String
deriving DecidableEq

/-- Position within a buffer (writer.go lines 24-26). -/
structure pos where
  line : Int
  col : Int
deriving DecidableEq

/-- A continuous range of lines on the terminal (writer.go lines 34-39).
Go's `cells [][]cell` slice is a `List (List cell)`; a Go `nil` slice is
modelled as the empty list. -/
structure buffer where
  width : Int
  col : Int
  indent : Int
  newlineWhenFull : Bool
  cells : List (List cell)
  dot : pos
deriving DecidableEq

/-- `newBuffer` (writer.go lines 41-43): one empty line, everything else zero. -/
def newBuffer (width : Int) : buffer :=
  { width := width, col := 0, indent := 0, newlineWhenFull := false,
    cells := [[]], dot := ⟨0, 0⟩ }

/-- The last line of the buffer (Go `b.cells[len(b.cells)-1]`).  `cells` is
never empty for buffers built by the operations below, so the `[]` default
is unreachable there. -/
def buffer.lastLine (b : buffer) : List cell :=
  (b.cells.getLast?).getD []

/-- `appendCell` (writer.go lines 45-49): append a cell to the last line and
advance the write column by the cell's width. -/
def buffer.appendCell (b : buffer) (c : cell) : buffer :=
  { b with cells := b.cells.dropLast ++ [b.lastLine ++ [c]],
           col := b.col + c.width }

/-- `appendLine` (writer.go lines 51-54). -/
def buffer.appendLine (b : buffer) : buffer :=
  { b with cells := b.cells ++ [[]], col := 0 }

/-- The indent cell `cell{rune: ' ', width: 1}` (writer.go line 61). -/
def spaceCell : cell := ⟨' ', 1, ""⟩

/-- `newline` (writer.go lines 56-64): append a line, then re-apply the
indent as space cells (the Go loop `for i := 0; i < b.indent; i++` runs
`max b.indent 0` times, hence `toNat`). -/
def buffer.newline (b : buffer) : buffer :=
  let b := b.appendLine
  if 0 < b.indent then
    (List.range b.indent.toNat).foldl (fun b _ => b.appendCell spaceCell) b
  else b

/-- `extend` (writer.go lines 66-71): guarded by `b2 != nil && b2.cells != nil`;
appends the other buffer's lines and adopts its write column.  `dot` is not
touched.  A nil `*buffer` is `none`; a nil `cells` slice is `[]`. -/
def buffer.extend (b : buffer) (b2 : Option buffer) : buffer :=
  match b2 with
  | none => b
  | some b2 =>
    if b2.cells.isEmpty then b
    else { b with cells := b.cells ++ b2.cells, col := b2.col }

/-- Modelled from the spec: Go's `unicode.IsPrint` is standard-library code
not under src/.  The spec's contract (sections 3 and 7) is that control /
non-displayable characters are dropped; modelled as: printable iff not a
C0 control character, not DEL, and not a C1 control character. -/
def isPrint (r : Char) : Bool :=
  0x20 ≤ r.toNat ∧ r.toNat ≠ 0x7f ∧ ¬ (0x80 ≤ r.toNat ∧ r.toNat ≤ 0x9f)

/-- Modelled from the spec: the display-width helper `wcwidth` (the
`util`/`edit` width table) is not under src/.  Per the spec (section 3) a
displayable cell's width is 1 or 2 columns; East Asian wide ranges get 2,
everything else 1. -/
def wcwidth (r : Char) : Int :=
  if (0x1100 ≤ r.toNat ∧ r.toNat ≤ 0x115f) ∨
     (0x2e80 ≤ r.toNat ∧ r.toNat ≤ 0xa4cf) ∨
     (0xac00 ≤ r.toNat ∧ r.toNat ≤ 0xd7a3) ∨
     (0xf900 ≤ r.toNat ∧ r.toNat ≤ 0xfaff) ∨
     (0xff00 ≤ r.toNat ∧ r.toNat ≤ 0xff60) ∨
     (0x20000 ≤ r.toNat ∧ r.toNat ≤ 0x2fffd) then 2 else 1

/-- Modelled from the spec: `wcwidths` (display width of a string) is not
under src/; the sum of the widths of the displayable characters. -/
def wcwidths (s : String) : Int :=
  s.toList.foldl (fun a r => a + (if isPrint r then wcwidth r else 0)) 0

/-- Modelled from the spec: `trimWcwidth` is not under src/.  Per the spec
(section 4.3) it truncates a string so that its display width fits `w`,
never splitting a double-width character: characters are kept greedily
while the accumulated width stays within `w`. -/
def trimWcwidth (s : String) (w : Int) : String :=
  (s.toList.foldl
    (fun (p : List Char × Int) r =>
      let wd := if isPrint r then wcwidth r else 0
      if p.2 + wd ≤ w then (p.1 ++ [r], p.2 + wd) else (p.1, w + 1))
    ([], 0)).1.asString

/-- `write` (writer.go lines 74-94): appends a single rune to a buffer. -/
def buffer.write (b : buffer) (r : Char) (attr : String) : buffer :=
  if r = '\n' then
    b.newline
  else if ¬ isPrint r then
    -- BUG(xiaq) in source: unprintable runes are dropped silently
    b
  else
    let wd := wcwidth r
    let c : cell := ⟨r, wd, attr⟩
    if b.col + wd > b.width then
      (b.newline).appendCell c
    else
      let b := b.appendCell c
      if b.col = b.width ∧ b.newlineWhenFull then b.newline else b

/-- The behavior of `write` as described by claim C3 (spec section 4.1),
stated from the spec's words so it can be compared with the source
translation `buffer.write`: a line terminator starts a new line
(re-applying the indent); a non-printable character leaves the buffer
unchanged; otherwise, when the current column plus the character's display
width exceeds the buffer width a new line is started before placing the
cell, else the cell is placed in the current line, and if placing it makes
the column exactly equal the buffer width while `newlineWhenFull` is set,
a new line is also started. -/
def writeSpec (b : buffer) (r : Char) (attr : String) : buffer :=
  if r = '\n' then
    b.newline
  else if ¬ isPrint r then
    b
  else
    let wd := wcwidth r
    if b.width < b.col + wd then
      (b.newline).appendCell ⟨r, wd, attr⟩
    else
      let placed := b.appendCell ⟨r, wd, attr⟩
      if placed.col = placed.width ∧ placed.newlineWhenFull then placed.newline
      else placed

/-- `writes` (writer.go lines 96-100): write every rune of the string. -/
def buffer.writes (b : buffer) (s : String) (attr : String) : buffer :=
  s.toList.foldl (fun b r => b.write r attr) b

/-- `writePadding` (writer.go lines 102-104): `strings.Repeat(" ", w)` (which
requires `w ≥ 0` in Go; `toNat` models the non-negative case). -/
def buffer.writePadding (b : buffer) (w : Int) (attr : String) : buffer :=
  b.writes (String.mk (List.replicate w.toNat ' ')) attr

/-- `line` (writer.go lines 106-108). -/
def buffer.line (b : buffer) : Int :=
  (b.cells.length : Int) - 1

/-- `cursor` (writer.go lines 110-112). -/
def buffer.cursor (b : buffer) : pos :=
  ⟨(b.cells.length : Int) - 1, b.col⟩

/-- `trimToLines` (writer.go lines 114-123): keep lines `[low, high)` and
shift `dot.line` down by `low`.  The Go reslice `b.cells[low:high]` panics
when `low < 0`, `low > high` or `high` exceeds the slice capacity (we use
its length, which equals the capacity bound relevant to all call sites
modelled here); the panic is `none`. -/
def buffer.trimToLines (b : buffer) (low high : Int) : Option buffer :=
  if 0 ≤ low ∧ low ≤ high ∧ high ≤ (b.cells.length : Int) then
    some { b with cells := (b.cells.drop low.toNat).take (high - low).toNat,
                  dot := ⟨b.dot.line - low, b.dot.col⟩ }
  else none

/-- Display width of one buffer line: the sum of its cells' widths. -/
def lineWidth (l : List cell) : Int :=
  l.foldl (fun a c => a + c.width) 0

/-- The width-safety invariant of a screen buffer: the buffer records the
given width, the width accommodates the indent plus one maximal-width
(2-column) character, the line list is never empty, every line fits the
width, and `col` is the display width of the last line. -/
def bufInv (width : Int) (b : buffer) : Prop :=
  b.width = width ∧ 2 ≤ width ∧ b.indent + 2 ≤ width ∧
  b.cells ≠ [] ∧ (∀ l ∈ b.cells, lineWidth l ≤ width) ∧
  lineWidth b.lastLine = b.col

/-- A write-sequence operation on a screen buffer: the operations named by
the width-safety property, plus the two settings (`indent`,
`newlineWhenFull`) that the claim quantifies over. -/
inductive bufOp where
  | wr (r : Char) (attr : String)
  | wrs (s : String) (attr : String)
  | wrPad (w : Int) (attr : String)
  | nl
  | setIndent (n : Int)
  | setNewlineWhenFull (v : Bool)
deriving DecidableEq

/-- Apply one operation to a buffer. -/
def applyOp (b : buffer) : bufOp → buffer
  | .wr r a => b.write r a
  | .wrs s a => b.writes s a
  | .wrPad w a => b.writePadding w a
  | .nl => b.newline
  | .setIndent n => { b with indent := n }
  | .setNewlineWhenFull v => { b with newlineWhenFull := v }

/-- Apply a sequence of operations to a buffer. -/
def applyOps (b : buffer) (ops : List bufOp) : buffer :=
  ops.foldl applyOp b

/-! ### Window selector (writer.go, lines 204-229) -/

/-- `findWindow` (writer.go lines 206-224).  Go's `max/2` is truncated
division, `Int.tdiv`.  The Go `switch` first clamps at the top, else at
the bottom. -/
def findWindow (height selected maxLines : Int) : Int × Int :=
  if height > maxLines then
    let low := selected - Int.tdiv maxLines 2
    let high := low + maxLines
    if low < 0 then (0, maxLines)
    else if high > height then (height - maxLines, height)
    else (low, high)
  else (0, height)

/-- `trimToWindow` (writer.go lines 226-229): `s[low:high]` for the window
found by `findWindow` (in-range at every modelled call site). -/
def trimToWindow (s : List String) (selected maxLines : Int) : List String × Int :=
  let lh := findWindow (s.length : Int) selected maxLines
  ((s.drop lh.1.toNat).take (lh.2 - lh.1).toNat, lh.1)

/-- The window-containment property claimed for `findWindow`: bounds are
inside `[0, total]`, the window is at most (`total > max`: exactly) `max`
lines, and for an over-long list the window is flush with an edge or
contains the selection. -/
def windowOK (total selected maxLines : Int) : Prop :=
  let lh := findWindow total selected maxLines
  0 ≤ lh.1 ∧ lh.1 ≤ lh.2 ∧ lh.2 ≤ total ∧ lh.2 - lh.1 ≤ maxLines ∧
  (maxLines < total → lh.2 - lh.1 = maxLines) ∧
  (maxLines < total →
    lh.1 = 0 ∨ lh.2 = total ∨ (lh.1 ≤ selected ∧ selected < lh.2))

/-! ### Completion grid and navigation listing (writer.go, lines 350-444) -/

/-- Modelled from the spec: `util.CeilDiv` is not under src/; the spec
(section 4.3) uses it as `ceil(a / b)`. -/
def ceilDiv (a b : Int) : Int :=
  Int.tdiv (a + b - 1) b

/-- Modelled from the spec: the style-tag lookup constants (`attrFor...`)
are process-global configuration not under src/; their concrete values do
not matter to any layout property. -/
def attrForCurrentCompletion : String := "7"

/-- Modelled from the spec: style tag for the selected file in the
navigation listing; not under src/. -/
def attrForSelectedFile : String := "7"

/-- The completion context fields read by the listing layout
(writer.go lines 356-397): candidate texts and the current index. -/
structure compState where
  candidates : List String
  current : Int
deriving DecidableEq

/-- One navigation pane: entry names and the selected index. -/
structure navColumn where
  names : List String
  selected : Int
deriving DecidableEq

/-- The navigation context fields read by the listing layout
(writer.go lines 400-439). -/
structure navState where
  current : navColumn
  parent : navColumn
deriving DecidableEq

/-- The completion grid shape (writer.go lines 361-374): column width is the
maximal candidate display width, columns are `(b.width+margin)/(colWidth+margin)`
(at least 1), rows are `CeilDiv(#cands, cols)`.  Returns
`(colWidth, cols, rows)`. -/
def gridShape (bufWidth : Int) (cands : List String) : Int × Int × Int :=
  let colMargin : Int := 2
  let colWidth := cands.foldl
    (fun cw t => let w := wcwidths t; if cw < w then w else cw) 0
  let cols0 := Int.tdiv (bufWidth + colMargin) (colWidth + colMargin)
  let cols := if cols0 = 0 then 1 else cols0
  let rows := ceilDiv (cands.length : Int) cols
  (colWidth, cols, rows)

/-- The candidate index shown at (row `i`, column `j`) of the completion
grid: the loop body computes `k := j*lines + i` (writer.go line 384),
with `lines` the number of rows. -/
def gridIndexAt (rows i j : Int) : Int :=
  j * rows + i

/-- The completion-listing renderer (writer.go lines 356-397), writing into
the listing buffer `b`. -/
def renderCompInto (b : buffer) (c : compState) (listingHeight : Int) : buffer :=
  let colMargin : Int := 2
  let shape := gridShape b.width c.candidates
  let colWidth := shape.1
  let cols := shape.2.1
  let rows := shape.2.2
  let lh := findWindow rows (Int.tmod c.current rows) listingHeight
  let low := lh.1
  let high := lh.2
  (List.range (high - low).toNat).foldl
    (fun b idx =>
      let i := low + (idx : Int)
      let b := if low < i then b.newline else b
      (List.range cols.toNat).foldl
        (fun b j =>
          let k := (j : Int) * rows + i
          if (c.candidates.length : Int) ≤ k then b
          else
            let attr := if k = c.current then attrForCurrentCompletion else ""
            let text := c.candidates.getD k.toNat ""
            let b := b.writes text attr
            let b := b.writePadding (colWidth - wcwidths text) attr
            b.writePadding colMargin "")
        b)
    b

/-- The navigation-listing renderer (writer.go lines 401-439), writing into
the listing buffer `b` (the code allocates it fresh, replacing any
completion listing).  Note the padding is computed from the *untrimmed*
name width, exactly as in the source. -/
def renderNavInto (b : buffer) (nav : navState) (listingHeight width : Int) : buffer :=
  let fl := trimToWindow nav.current.names nav.current.selected listingHeight
  let filenames := fl.1
  let low := fl.2
  let pfl := trimToWindow nav.parent.names nav.parent.selected listingHeight
  let parentFilenames := pfl.1
  let parentLow := pfl.2
  let colMargin : Int := 1
  let parentWidth := Int.tdiv (width + colMargin) 2
  let currentWidth := width - colMargin - parentWidth
  (List.range (max filenames.length parentFilenames.length)).foldl
    (fun b i =>
      let b := if 0 < i then b.newline else b
      let text := if i < parentFilenames.length then parentFilenames.getD i "" else ""
      let attr := if (i : Int) + parentLow = nav.parent.selected
                  then attrForSelectedFile else ""
      let b := b.writes (trimWcwidth text parentWidth) attr
      let b := b.writePadding (parentWidth - wcwidths text) attr
      let b := b.writePadding colMargin ""
      if i < filenames.length then
        let attr := if (i : Int) + low = nav.current.selected
                    then attrForSelectedFile else ""
        let text := filenames.getD i ""
        let b := b.writes (trimWcwidth text currentWidth) attr
        b.writePadding (currentWidth - wcwidths text) attr
      else b)
    b

/-- The listing stage of `refresh` (writer.go lines 351-444): note the Go
condition `listingHeight > 0 && comp != nil || nav != nil` parses as
`(listingHeight > 0 && comp != nil) || nav != nil`, so a navigation
listing is built even when the remaining height is zero.  `none` is the
nil listing buffer. -/
def renderListing (width : Int) (comp : Option compState) (nav : Option navState)
    (listingHeight : Int) : Option buffer :=
  if (0 < listingHeight ∧ comp.isSome) ∨ nav.isSome then
    let b := newBuffer width
    let b := match comp with
      | some c => renderCompInto b c listingHeight
      | none => b
    let b := match nav with
      | some n => renderNavInto (newBuffer width) n listingHeight width
      | none => b
    some b
  else none

/-! ### Frame composition (writer.go, lines 195-202, 333-348, 446-452) -/

/-- `lines` for one possibly-nil buffer (writer.go lines 195-202). -/
def optLines : Option buffer → Int
  | none => 0
  | some b => (b.cells.length : Int)

/-- `lines(bufs...)` (writer.go lines 195-202). -/
def linesOf (bufs : List (Option buffer)) : Int :=
  bufs.foldl (fun a ob => a + optLines ob) 0

/-- `extend` called on a possibly-nil receiver with a possibly-nil argument
(writer.go lines 66-71 as used at lines 448-450).  When the guard
`b2 != nil && b2.cells != nil` fails the receiver is never dereferenced;
when it holds and the receiver is nil, assigning `b.cells` dereferences a
nil pointer: a panic, modelled as the outer `none`. -/
def extendGo (b b2 : Option buffer) : Option (Option buffer) :=
  match b2 with
  | none => some b
  | some b2 =>
    if b2.cells.isEmpty then some b
    else
      match b with
      | none => none
      | some b => some (some (b.extend (some b2)))

/-- The buffer combination at the end of `refresh` (writer.go lines 446-450):
`buf = bufLine; buf.extend(bufMode); buf.extend(bufTips); buf.extend(bufListing)`.
Outer `none` is a panic. -/
def composeBufs (bl bm bt ls : Option buffer) : Option (Option buffer) :=
  match extendGo bl bm with
  | none => none
  | some b1 =>
    match extendGo b1 bt with
    | none => none
    | some b2 => extendGo b2 ls

/-- The frame-composition stage of `refresh` (writer.go lines 333-348 and
351-450): the height switch trims or drops buffers, the listing stage runs
afterwards (with the remaining `listingHeight`, which stays 0 in all but
the first case), and the buffers are concatenated.  Outer `none` is a
panic; `some none` is the nil frame handed to `commitBuffer`. -/
def composeFrame (width : Int) (bufLine : buffer) (bufMode bufTips : Option buffer)
    (comp : Option compState) (nav : Option navState) (height : Int) :
    Option (Option buffer) :=
  if linesOf [some bufLine, bufMode, bufTips] ≤ height then
    let lh := height - linesOf [some bufLine, bufMode, bufTips]
    composeBufs (some bufLine) bufMode bufTips (renderListing width comp nav lh)
  else if linesOf [some bufLine, bufTips] ≤ height then
    composeBufs (some bufLine) none bufTips (renderListing width comp nav 0)
  else if (bufLine.cells.length : Int) ≤ height then
    composeBufs (some bufLine) none none (renderListing width comp nav 0)
  else if 1 ≤ height then
    match bufLine.trimToLines (bufLine.dot.line + 1 - height) (bufLine.dot.line + 1) with
    | none => none
    | some f => composeBufs (some f) none none (renderListing width comp nav 0)
  else
    composeBufs none none none (renderListing width comp nav 0)

/-- The window of lines that the specification describes for frame trimming:
a window of `height` lines centered on the dot line, centering and
clamping as the spec's own Window Selector (`findWindow`) does. -/
def centeredWindowSpec (cells : List (List cell)) (dotLine height : Int) :
    List (List cell) :=
  let lh := findWindow (cells.length : Int) dotLine height
  (cells.drop lh.1.toNat).take (lh.2 - lh.1).toNat

/-! ### Terminal writer (writer.go, lines 127-193) -/

/-- The writer state relevant to committing: the previously committed frame
(writer.go lines 127-135; the `os.File` is external I/O, modelled at
`commitBuffer` by an explicit write outcome). -/
structure writerState where
  oldBuf : buffer
deriving DecidableEq

/-- `deltaPos` (writer.go lines 139-150): relative vertical move, then
absolute column. -/
def deltaPos (f t : pos) : String :=
  (if f.line < t.line then "\x1b[" ++ toString (t.line - f.line) ++ "B"
   else if t.line < f.line then "\x1b[" ++ toString (f.line - t.line) ++ "A"
   else "")
  ++ "\x1b[" ++ toString (t.col + 1) ++ "G"

/-- The byte stream assembled by `commitBuffer` (writer.go lines 156-184):
cursor-up to the top of the previous frame, erase, the new frame's cells
with style switches, style reset, and the cursor move to the dot. -/
def renderBytes (oldBuf b : buffer) : String :=
  let pLine := oldBuf.dot.line
  let s := if 0 < pLine then "\x1b[" ++ toString pLine ++ "A" else ""
  let s := s ++ "\r\x1b[J"
  let p := b.cells.enum.foldl
    (fun (p : String × String) il =>
      let p := if 0 < il.1 then (p.1 ++ "\n", p.2) else p
      il.2.foldl
        (fun (p : String × String) c =>
          if 0 < c.width ∧ c.attr ≠ p.2 then
            (p.1 ++ "\x1b[m\x1b[" ++ c.attr ++ "m" ++ String.singleton c.rune, c.attr)
          else
            (p.1 ++ String.singleton c.rune, p.2))
        p)
    (s, "")
  let s := if p.2 ≠ "" then p.1 ++ "\x1b[m" else p.1
  let cursor := b.cursor
  let cursor := if cursor.col = b.width then pos.mk cursor.line (cursor.col - 1)
                else cursor
  s ++ deltaPos cursor b.dot

/-- `commitBuffer` (writer.go lines 155-193).  `buf = none` is the nil frame:
Go dereferences it (`range buf.cells`), a panic, the outer `none`.  The
result of the external `file.Write` is the parameter `writeErr` (`some e`
= I/O error).  On error the error is returned and the writer state is
unchanged; only on success is `oldBuf` replaced by the new frame.  The
result carries (new writer state, assembled bytes, returned error). -/
def commitBuffer (w : writerState) (buf : Option buffer) (writeErr : Option String) :
    Option (writerState × String × Option String) :=
  match buf with
  | none => none
  | some b =>
    let bytes := renderBytes w.oldBuf b
    match writeErr with
    | some e => some (w, bytes, some e)
    | none => some (⟨b⟩, bytes, none)

/-- The tail of `refresh` (writer.go lines 333-452): compose the frame for
the reported terminal height, then commit it.  Outer `none` is a panic. -/
def composeAndCommit (w : writerState) (width : Int) (bufLine : buffer)
    (bufMode bufTips : Option buffer) (comp : Option compState)
    (nav : Option navState) (height : Int) (writeErr : Option String) :
    Option (writerState × String × Option String) :=
  match composeFrame width bufLine bufMode bufTips comp nav height with
  | none => none
  | some buf => commitBuffer w buf writeErr

/-! ### List indexing (eval/list.go) -/

/-- Modelled from the spec: the evaluator's `Value` interface is external to
this core (spec section 1: only the indexing contract matters).  String
values carry the index text (`ToString` of a string is itself); `blob`
values stand for arbitrary other distinct values. -/
inductive Value where
  | str : String → Value
  | blob : Nat → Value
deriving DecidableEq

/-- Modelled from the spec: `ToString` on the values above; not under src/.
A `blob` renders as a non-numeric tag. -/
def toStringV : Value → String
  | .str s => s
  | .blob n => "blob" ++ toString n

/-- The two error kinds of eval/list.go lines 10-13
(`ErrNeedIntIndex`, `ErrIndexOutOfRange`). -/
inductive EvalError where
  | needIntIndex
  | indexOutOfRange
deriving DecidableEq

/-- Failure modes of Go's `strconv.Atoi`. -/
inductive AtoiError where
  | notNum
  | outOfRange
deriving DecidableEq

/-- Go's `strconv.Atoi` on a 64-bit platform, modelled over the rune list:
an optional sign followed by at least one decimal digit; values outside
the `int64` range give the range error. -/
def atoiChars (cs : List Char) : Except AtoiError Int :=
  let p : Bool × List Char :=
    match cs with
    | '-' :: rest => (true, rest)
    | '+' :: rest => (false, rest)
    | _ => (false, cs)
  if p.2.isEmpty ∨ ¬ p.2.all Char.isDigit then .error .notNum
  else
    let v : Nat := p.2.foldl (fun a c => a * 10 + (c.toNat - 48)) 0
    let i : Int := if p.1 then -(v : Int) else (v : Int)
    if i < -(2 ^ 63) ∨ (2 ^ 63 - 1 : Int) < i then .error .outOfRange
    else .ok i

/-- Go's `strconv.Atoi` (used at eval/list.go line 66). -/
def atoi (s : String) : Except AtoiError Int :=
  atoiChars s.toList

/-- `intIndex` (eval/list.go lines 65-76): parse the index value's string
form; a range error becomes `IndexOutOfRange`, any other parse error
becomes `NeedIntIndex`.  `throw` is Go panic-based signaling caught by the
evaluator; modelled as `Except`. -/
def intIndex (idx : Value) : Except EvalError Int :=
  match atoi (toStringV idx) with
  | .ok i => .ok i
  | .error .outOfRange => .error .indexOutOfRange
  | .error .notNum => .error .needIntIndex

/-- `intIndexWithin` (eval/list.go lines 53-63): negative indices count from
the end; anything still outside `[0, n)` is out of range. -/
def intIndexWithin (idx : Value) (n : Int) : Except EvalError Int :=
  match intIndex idx with
  | .error e => .error e
  | .ok i0 =>
    let i := if i0 < 0 then i0 + n else i0
    if i < 0 ∨ n ≤ i then .error .indexOutOfRange
    else .ok i

/-- `IndexOne` (eval/list.go lines 43-46): `(*l.inner)[i]` after the bounds
check (`intIndexWithin` guarantees `0 ≤ i < n`, so the `getD` default is
unreachable). -/
def IndexOne (l : List Value) (idx : Value) : Except EvalError Value :=
  match intIndexWithin idx (l.length : Int) with
  | .error e => .error e
  | .ok i => .ok (l.getD i.toNat (.str ""))

/-- `IndexSet` (eval/list.go lines 48-51): in-place update `(*l.inner)[i] = v`,
modelled as returning the updated list. -/
def IndexSet (l : List Value) (idx : Value) (v : Value) :
    Except EvalError (List Value) :=
  match intIndexWithin idx (l.length : Int) with
  | .error e => .error e
  | .ok i => .ok (l.set i.toNat v)

/-! ## Theorems -/

/-- C1 fails as stated: no constraint is placed on `max`, but at
`(total, selected, max) = (2, 1, 0)` the code returns the window `(1, 1)`,
which is neither flush with an edge nor contains the selection. -/
theorem c1_counterexample : ¬ windowOK 2 1 0 := by
  have h : findWindow 2 1 0 = (1, 1) := by decide
  simp only [windowOK, h]
  intro hc
  rcases hc.2.2.2.2.2 (by decide) with h1 | h1 | h1 <;> omega

/-- C1 (amended): for every `(total, selected, max)` with
`0 ≤ selected < total` and `max ≥ 1`, `findWindow` returns `(low, high)`
with `0 ≤ low ≤ high ≤ total` and `high - low ≤ max` (with equality
whenever `total > max`), and if `total > max` then `low = 0`,
`high = total`, or `selected ∈ [low, high)`. -/
theorem c1_window_containment (total selected maxLines : Int)
    (h0 : 0 ≤ selected) (h1 : selected < total) (h2 : 1 ≤ maxLines) :
    windowOK total selected maxLines := by
  have hd : Int.tdiv maxLines 2 = maxLines / 2 :=
    Int.tdiv_eq_ediv (by omega) (by omega)
  simp only [windowOK, findWindow, hd]
  split_ifs <;> dsimp only <;> omega

/-- Witness for C1's amended theorem at the spec's own centering example:
`findWindow(total=100, selected=50, max=10)`. -/
theorem c1_window_containment_witness :
    (0 ≤ (50 : Int)) ∧ ((50 : Int) < 100) ∧ ((1 : Int) ≤ 10) ∧
    windowOK 100 50 10 :=
  ⟨by decide, by decide, by decide,
   c1_window_containment 100 50 10 (by decide) (by decide) (by decide)⟩

/-- C3: `buffer.write` behaves exactly as the spec's rune-write description
`writeSpec`: line terminators start a new line re-applying the indent,
non-printable runes are silently dropped, a rune that would overflow the
width is placed on a fresh line, and a rune that exactly fills the line
triggers a further new line when `newlineWhenFull` is set. -/
theorem c3_write_behavior (b : buffer) (r : Char) (attr : String) :
    b.write r attr = writeSpec b r attr := by
  unfold buffer.write writeSpec
  rfl

/-- C4 fails as stated: `extend` does not adopt the other buffer's dot.
Extending a two-line buffer with dot `(0,0)` by a non-empty one-line
buffer with dot `(0,1)` leaves the dot at `(0,0)`, not the translated
`(2,1)`. -/
theorem c4_counterexample :
    ((⟨5, 3, 0, false, [[⟨'x', 1, ""⟩]], ⟨0, 1⟩⟩ : buffer).cells ≠ []) ∧
    ((buffer.extend ⟨5, 0, 0, false, [[], []], ⟨0, 0⟩⟩
        (some ⟨5, 3, 0, false, [[⟨'x', 1, ""⟩]], ⟨0, 1⟩⟩)).dot ≠ ⟨2, 1⟩) := by
  decide

/-- C4 (amended): for every buffer `b` and non-absent buffer `b2` with a
non-nil line list, `b.extend(b2)` appends `b2`'s lines after `b`'s lines
and adopts `b2`'s write column, leaving `b`'s dot unchanged; if `b2` is
absent or its line list is nil, `extend` leaves `b` unchanged. -/
theorem c4_extend (b b2 : buffer) (h : b2.cells ≠ []) :
    (b.extend (some b2)).cells = b.cells ++ b2.cells ∧
    (b.extend (some b2)).col = b2.col ∧
    (b.extend (some b2)).dot = b.dot ∧
    b.extend none = b ∧
    (∀ b3 : buffer, b3.cells = [] → b.extend (some b3) = b) := by
  unfold buffer.extend
  refine ⟨?_, ?_, ?_, rfl, ?_⟩
  · simp [List.isEmpty_iff, h]
  · simp [List.isEmpty_iff, h]
  · simp [List.isEmpty_iff, h]
  · intro b3 h3
    simp [List.isEmpty_iff, h3]

/-- Witness for C4's amended theorem at a concrete pair of buffers. -/
theorem c4_extend_witness :
    ((⟨5, 3, 0, false, [[⟨'x', 1, ""⟩]], ⟨0, 1⟩⟩ : buffer).cells ≠ []) ∧
    ((buffer.extend ⟨5, 0, 0, false, [[], []], ⟨0, 0⟩⟩
        (some ⟨5, 3, 0, false, [[⟨'x', 1, ""⟩]], ⟨0, 1⟩⟩)).cells =
      (⟨5, 0, 0, false, [[], []], ⟨0, 0⟩⟩ : buffer).cells ++
      (⟨5, 3, 0, false, [[⟨'x', 1, ""⟩]], ⟨0, 1⟩⟩ : buffer).cells ∧
     (buffer.extend ⟨5, 0, 0, false, [[], []], ⟨0, 0⟩⟩
        (some ⟨5, 3, 0, false, [[⟨'x', 1, ""⟩]], ⟨0, 1⟩⟩)).col =
      (⟨5, 3, 0, false, [[⟨'x', 1, ""⟩]], ⟨0, 1⟩⟩ : buffer).col ∧
     (buffer.extend ⟨5, 0, 0, false, [[], []], ⟨0, 0⟩⟩
        (some ⟨5, 3, 0, false, [[⟨'x', 1, ""⟩]], ⟨0, 1⟩⟩)).dot =
      (⟨5, 0, 0, false, [[], []], ⟨0, 0⟩⟩ : buffer).dot ∧
     buffer.extend ⟨5, 0, 0, false, [[], []], ⟨0, 0⟩⟩ none =
      ⟨5, 0, 0, false, [[], []], ⟨0, 0⟩⟩ ∧
     (∀ b3 : buffer, b3.cells = [] →
       buffer.extend ⟨5, 0, 0, false, [[], []], ⟨0, 0⟩⟩ (some b3) =
         ⟨5, 0, 0, false, [[], []], ⟨0, 0⟩⟩)) :=
  ⟨by decide,
   c4_extend ⟨5, 0, 0, false, [[], []], ⟨0, 0⟩⟩
     ⟨5, 3, 0, false, [[⟨'x', 1, ""⟩]], ⟨0, 1⟩⟩ (by decide)⟩

/-- C5 fails as stated: for 5 candidates of display widths `[3,5,2,4,3]`
with margin 2 and buffer width 20 the code does choose column width 5,
3 columns and 2 rows, but the grid cell at row 0, column 1 holds candidate
`1*2+0 = 2`, not candidate 3 (`k = j*rows + i`, writer.go line 384). -/
theorem c5_counterexample :
    gridShape 20 ["abc", "abcde", "ab", "abcd", "abc"] = (5, 3, 2) ∧
    gridIndexAt 2 0 1 ≠ 3 := by decide

/-- C5 (amended): with 5 completion candidates of display widths
`[3,5,2,4,3]`, column margin 2, and buffer width 20, the layout chooses
column width 5, 3 columns and 2 rows, and candidate index 3 lands at
row 1, column 1. -/
theorem c5_grid_example :
    (["abc", "abcde", "ab", "abcd", "abc"].map wcwidths = [3, 5, 2, 4, 3]) ∧
    gridShape 20 ["abc", "abcde", "ab", "abcd", "abc"] = (5, 3, 2) ∧
    gridIndexAt 2 1 1 = 3 := by decide

/-- C7: contrary to the claim, a refresh at terminal height 0 does not
complete cleanly: the height switch's default branch sets every buffer to
nil, and `commitBuffer` then dereferences the nil frame
(`range buf.cells`, writer.go line 165), a run-time panic (`none`). -/
theorem c7_height_zero_panics :
    composeAndCommit ⟨newBuffer 80⟩ 80 (newBuffer 80) none none none none 0 none
      = none := by decide

/-- C10: if the terminal write fails, `commitBuffer` returns that error and
leaves the stored previous-frame baseline `oldBuf` unchanged; the baseline
is replaced by the committed frame only on a successful write. -/
theorem c10_commit_baseline (w : writerState) (b : buffer) (e : String) :
    commitBuffer w (some b) (some e) = some (w, renderBytes w.oldBuf b, some e) ∧
    commitBuffer w (some b) none = some (⟨b⟩, renderBytes w.oldBuf b, none) :=
  ⟨rfl, rfl⟩

/-- Helper: a list updated in bounds reads back the written element. -/
theorem getD_set_self (l : List Value) (n : Nat) (v d : Value) (h : n < l.length) :
    (l.set n v).getD n d = v := by
  simp [List.getD, List.getElem?_set_self, h]

/-- Helper: `intIndexWithin` on an index value whose string form parses to
`i` normalizes negative `i` by adding the length and bounds-checks the
result, exactly as eval/list.go lines 53-63. -/
theorem intIndexWithin_spec (s : String) (i n : Int) (hs : atoi s = .ok i) :
    intIndexWithin (.str s) n =
      (if (if i < 0 then i + n else i) < 0 ∨ n ≤ (if i < 0 then i + n else i)
       then .error .indexOutOfRange
       else .ok (if i < 0 then i + n else i)) := by
  unfold intIndexWithin intIndex
  simp only [toStringV]
  rw [hs]

/-- C8: for every list, every value `v`, and every integer index `i` with
`-n ≤ i < n` (given as any index string parsing to `i`, covering both the
non-negative and the negative-from-end form), `IndexSet(i, v)` followed by
`IndexOne(i)` on the resulting list returns `v`. -/
theorem c8_index_roundtrip (l : List Value) (v : Value) (i : Int) (s : String)
    (hs : atoi s = .ok i) (h0 : -(l.length : Int) ≤ i) (h1 : i < (l.length : Int)) :
    ∃ l2, IndexSet l (.str s) v = .ok l2 ∧ IndexOne l2 (.str s) = .ok v := by
  have hW : ∀ m : Int, m = (l.length : Int) →
      intIndexWithin (.str s) m = .ok (if i < 0 then i + m else i) := by
    intro m hm
    rw [intIndexWithin_spec _ _ _ hs, if_neg (by split <;> omega)]
  refine ⟨l.set (if i < 0 then i + (l.length : Int) else i).toNat v, ?_, ?_⟩
  · unfold IndexSet
    rw [hW _ rfl]
  · unfold IndexOne
    rw [List.length_set, hW _ rfl]
    simp only
    rw [getD_set_self]
    omega

/-- Witness for C8 at the negative-from-end index `-1` of a two-element
list. -/
theorem c8_index_roundtrip_witness :
    atoi "-1" = .ok (-1 : Int) ∧
    (-(([Value.blob 0, Value.blob 1] : List Value).length : Int) ≤ -1) ∧
    ((-1 : Int) < (([Value.blob 0, Value.blob 1] : List Value).length : Int)) ∧
    (∃ l2, IndexSet [Value.blob 0, Value.blob 1] (.str "-1") (Value.blob 9) = .ok l2 ∧
      IndexOne l2 (.str "-1") = .ok (Value.blob 9)) :=
  ⟨rfl, by decide, by decide,
   c8_index_roundtrip [Value.blob 0, Value.blob 1] (Value.blob 9) (-1) "-1"
     rfl (by decide) (by decide)⟩

/-- C9: on a list of length `n`, indexing with `n` and with `-n-1` (given
as any index strings parsing to those integers) fails with the
`IndexOutOfRange` error kind, and indexing with a non-integer index
fails with the distinct `NeedIntegerIndex` error kind; no case clamps the
index to a valid one. -/
theorem c9_index_errors (l : List Value) (s t u : String)
    (hs : atoi s = .ok (l.length : Int))
    (ht : atoi t = .ok (-(l.length : Int) - 1))
    (hu : atoi u = .error .notNum) :
    IndexOne l (.str s) = .error .indexOutOfRange ∧
    IndexOne l (.str t) = .error .indexOutOfRange ∧
    IndexOne l (.str u) = .error .needIntIndex := by
  refine ⟨?_, ?_, ?_⟩
  · unfold IndexOne
    rw [intIndexWithin_spec _ _ _ hs]
    have e1 : (if ((l.length : Int)) < 0 then (l.length : Int) + (l.length : Int)
               else (l.length : Int)) = (l.length : Int) := if_neg (by omega)
    rw [e1, if_pos (by omega)]
  · unfold IndexOne
    rw [intIndexWithin_spec _ _ _ ht]
    have e2 : (if (-(l.length : Int) - 1) < 0 then
                 -(l.length : Int) - 1 + (l.length : Int)
               else -(l.length : Int) - 1) = (-1 : Int) := by
      rw [if_pos (by omega)]; ring
    rw [e2, if_pos (by omega)]
  · unfold IndexOne intIndexWithin intIndex
    simp only [toStringV]
    rw [hu]

/-- Witness for C9 on the one-element list with indices `1`, `-2`, and the
non-numeric index `x`. -/
theorem c9_index_errors_witness :
    atoi "1" = .ok (([Value.blob 0] : List Value).length : Int) ∧
    atoi "-2" = .ok (-(([Value.blob 0] : List Value).length : Int) - 1) ∧
    atoi "x" = .error .notNum ∧
    IndexOne [Value.blob 0] (.str "1") = .error .indexOutOfRange ∧
    IndexOne [Value.blob 0] (.str "-2") = .error .indexOutOfRange ∧
    IndexOne [Value.blob 0] (.str "x") = .error .needIntIndex := by
  refine ⟨rfl, rfl, rfl, ?_⟩
  exact c9_index_errors [Value.blob 0] "1" "-2" "x" rfl rfl rfl

/-- Helper: folding the width-sum from any start value. -/
theorem lineWidth_shift (l : List cell) (x : Int) :
    List.foldl (fun a c => a + c.width) x l = x + lineWidth l := by
  induction l generalizing x with
  | nil => simp [lineWidth]
  | cons c t ih =>
    simp only [List.foldl_cons, lineWidth]
    rw [ih, ih (0 + c.width)]
    ring

/-- Helper: line width is additive over concatenation. -/
theorem lineWidth_append (l1 l2 : List cell) :
    lineWidth (l1 ++ l2) = lineWidth l1 + lineWidth l2 := by
  unfold lineWidth
  rw [List.foldl_append, lineWidth_shift]
  rfl

/-- Helper: `n` indent spaces have width `n`. -/
theorem lineWidth_replicate (n : Nat) :
    lineWidth (List.replicate n spaceCell) = (n : Int) := by
  induction n with
  | zero => simp [lineWidth]
  | succ k ih =>
    rw [List.replicate_succ', lineWidth_append, ih]
    simp [lineWidth, spaceCell]

/-- Helper: every display width produced by `wcwidth` is 1 or 2. -/
theorem wcwidth_bounds (r : Char) : 1 ≤ wcwidth r ∧ wcwidth r ≤ 2 := by
  unfold wcwidth
  split <;> omega

/-- Helper: the indent loop of `newline` appends exactly `n` space cells to
the last line and advances the column by `n`. -/
theorem foldl_spaces (xs : List (List cell)) (l : List cell)
    (w co ind : Int) (nwf : Bool) (d : pos) (n : Nat) :
    (List.range n).foldl (fun (b : buffer) _ => b.appendCell spaceCell)
      ⟨w, co, ind, nwf, xs ++ [l], d⟩ =
      ⟨w, co + n, ind, nwf, xs ++ [l ++ List.replicate n spaceCell], d⟩ := by
  induction n with
  | zero => simp
  | succ k ih =>
    rw [List.range_succ, List.foldl_append, ih]
    simp only [List.foldl_cons, List.foldl_nil, buffer.appendCell, buffer.lastLine,
      List.getLast?_concat, List.dropLast_concat, Option.getD_some]
    rw [List.replicate_succ']
    simp only [List.append_assoc]
    have hc : co + (k : Int) + spaceCell.width = co + ((k + 1 : Nat) : Int) := by
      simp only [spaceCell]
      push_cast
      ring
    rw [hc]

/-- Helper: the last line of a buffer whose line list ends in `y` is `y`. -/
theorem lastLine_of_concat (w co ind : Int) (nwf : Bool) (d : pos)
    (xs : List (List cell)) (y : List cell) :
    buffer.lastLine ⟨w, co, ind, nwf, xs ++ [y], d⟩ = y := by
  simp [buffer.lastLine, List.getLast?_concat]

/-- Helper: the net effect of `newline`: one fresh line holding the indent
spaces, with the column set to the (non-negative part of the) indent. -/
theorem newline_spec (b : buffer) :
    b.newline = ⟨b.width, (b.indent.toNat : Int), b.indent, b.newlineWhenFull,
                 b.cells ++ [List.replicate b.indent.toNat spaceCell], b.dot⟩ := by
  simp only [buffer.newline, buffer.appendLine]
  split
  · rw [foldl_spaces b.cells [] b.width 0 b.indent b.newlineWhenFull b.dot b.indent.toNat]
    simp
  · rename_i hneg
    have h0 : b.indent.toNat = 0 := by omega
    rw [h0]
    simp

/-- Helper: `newline` preserves the width-safety invariant. -/
theorem newline_inv (w : Int) (b : buffer) (h : bufInv w b) : bufInv w b.newline := by
  obtain ⟨h1, h2, h3, h4, h5, h6⟩ := h
  rw [newline_spec]
  refine ⟨h1, h2, h3, by simp, ?_, ?_⟩
  · intro l hl
    rcases List.mem_append.mp hl with hl | hl
    · exact h5 l hl
    · simp only [List.mem_singleton] at hl
      subst hl
      rw [lineWidth_replicate]
      omega
  · rw [lastLine_of_concat, lineWidth_replicate]

/-- Helper: `appendCell` preserves the width-safety invariant when the cell
still fits the configured width. -/
theorem appendCell_inv (w : Int) (b : buffer) (c : cell) (h : bufInv w b)
    (hc : b.col + c.width ≤ w) : bufInv w (b.appendCell c) := by
  obtain ⟨h1, h2, h3, h4, h5, h6⟩ := h
  have hone : lineWidth [c] = c.width := by
    simp [lineWidth]
  unfold buffer.appendCell
  refine ⟨h1, h2, h3, by simp, ?_, ?_⟩
  · intro l hl
    rcases List.mem_append.mp hl with hl | hl
    · exact h5 l (List.dropLast_subset _ hl)
    · simp only [List.mem_singleton] at hl
      subst hl
      rw [lineWidth_append, hone]
      omega
  · rw [lastLine_of_concat, lineWidth_append, hone]
    dsimp only
    omega

/-- Helper: `write` preserves the width-safety invariant. -/
theorem write_inv (w : Int) (b : buffer) (r : Char) (a : String) (h : bufInv w b) :
    bufInv w (b.write r a) := by
  have hww := wcwidth_bounds r
  have h1 : b.width = w := h.1
  have h2 : (2 : Int) ≤ w := h.2.1
  have h3 : b.indent + 2 ≤ w := h.2.2.1
  simp only [buffer.write]
  split
  · exact newline_inv w b h
  · split
    · exact h
    · split
      · -- soft wrap: new line, then place the cell there
        refine appendCell_inv w _ _ (newline_inv w b h) ?_
        rw [newline_spec]
        simp only
        omega
      · rename_i hov
        simp only [not_lt] at hov
        split
        · exact newline_inv w _ (appendCell_inv w b _ h (by simp only; omega))
        · exact appendCell_inv w b _ h (by simp only; omega)

/-- Helper: writing a list of runes preserves the width-safety invariant. -/
theorem writes_list_inv (w : Int) (cs : List Char) (a : String) :
    ∀ b, bufInv w b → bufInv w (cs.foldl (fun b r => b.write r a) b) := by
  induction cs with
  | nil => intro b h; exact h
  | cons c t ih => intro b h; exact ih _ (write_inv w b c a h)

/-- Helper: `writes` preserves the width-safety invariant. -/
theorem writes_inv (w : Int) (b : buffer) (s : String) (a : String) (h : bufInv w b) :
    bufInv w (b.writes s a) :=
  writes_list_inv w s.toList a b h

/-- Helper: every buffer operation preserves the width-safety invariant,
provided any indent set leaves room for a maximal-width character. -/
theorem applyOp_inv (w : Int) (b : buffer) (op : bufOp) (h : bufInv w b)
    (hop : ∀ n, op = .setIndent n → n + 2 ≤ w) : bufInv w (applyOp b op) := by
  cases op with
  | wr r a => exact write_inv w b r a h
  | wrs s a => exact writes_inv w b s a h
  | wrPad n a => exact writes_inv w b _ a h
  | nl => exact newline_inv w b h
  | setIndent n =>
    obtain ⟨h1, h2, h3, h4, h5, h6⟩ := h
    exact ⟨h1, h2, hop n rfl, h4, h5, h6⟩
  | setNewlineWhenFull v =>
    obtain ⟨h1, h2, h3, h4, h5, h6⟩ := h
    exact ⟨h1, h2, h3, h4, h5, h6⟩

/-- Helper: operation sequences preserve the width-safety invariant. -/
theorem applyOps_inv (w : Int) (ops : List bufOp) :
    ∀ b, bufInv w b → (∀ n, bufOp.setIndent n ∈ ops → n + 2 ≤ w) →
      bufInv w (applyOps b ops) := by
  induction ops with
  | nil => intro b h _; exact h
  | cons op t ih =>
    intro b h hop
    exact ih _
      (applyOp_inv w b op h (fun n hn => hop n (by rw [hn]; exact List.mem_cons_self _ _)))
      (fun n hn => hop n (List.mem_cons_of_mem _ hn))

/-- C2 fails as stated: a buffer of width 0 (or any buffer whose indent
leaves no room for the next character) overflows its configured width,
because the soft-wrap placement after `newline` appends the cell without a
further width check.  Writing a single space into `newBuffer 0` yields a
line of width 1. -/
theorem c2_counterexample :
    ¬ ∀ l ∈ (applyOps (newBuffer 0) [.wr ' ' ""]).cells,
        lineWidth l ≤ (newBuffer 0).width := by decide

/-- C2 (amended): for every buffer created by `newBuffer width` with
`width ≥ 2` and every sequence of write/writes/writePadding/newline
operations (with any `newlineWhenFull` settings, and any indent settings
that leave room for one maximal-width character, `indent + 2 ≤ width`),
every line's total cell display width is at most the configured width. -/
theorem c2_width_safety (width : Int) (ops : List bufOp) (hw : 2 ≤ width)
    (hind : ∀ n, bufOp.setIndent n ∈ ops → n + 2 ≤ width) :
    ∀ l ∈ (applyOps (newBuffer width) ops).cells, lineWidth l ≤ width := by
  have h0 : bufInv width (newBuffer width) := by
    refine ⟨rfl, hw, by dsimp only [newBuffer]; omega, by simp [newBuffer], ?_,
      by simp [newBuffer, buffer.lastLine, lineWidth]⟩
    intro l hl
    simp only [newBuffer, List.mem_singleton] at hl
    subst hl
    simp only [lineWidth, List.foldl_nil]
    omega
  exact (applyOps_inv width ops (newBuffer width) h0 hind).2.2.2.2.1

/-- Witness for C2's amended theorem: an indented two-line write into a
width-3 buffer. -/
theorem c2_width_safety_witness :
    (2 ≤ (3 : Int)) ∧
    (∀ l ∈ (applyOps (newBuffer 3) [.setIndent 1, .wrs "ab\ncd" ""]).cells,
      lineWidth l ≤ 3) :=
  ⟨by decide,
   c2_width_safety 3 [.setIndent 1, .wrs "ab\ncd" ""] (by decide)
     (by
       intro n hn
       simp only [List.mem_cons, List.not_mem_nil, or_false] at hn
       rcases hn with hn | hn
       · cases hn; omega
       · cases hn)⟩

/-- Helper: a possibly-nil buffer contributes a non-negative line count. -/
theorem optLines_nonneg (ob : Option buffer) : 0 ≤ optLines ob := by
  cases ob <;> simp [optLines]

/-- C6 fails as stated, in three ways at concrete inputs. (1) With an
active navigation context, the listing is not dropped: the Go condition
`listingHeight > 0 && comp != nil || nav != nil` still builds a (here
empty) navigation listing at listing height 0, so a 5-line input buffer
with the dot on the last line composed at height 3 yields a 4-line frame,
not 3 lines. (2) The trimmed window is anchored at the dot line
(`trimToLines(dotLine+1-height, dotLine+1)`), not centered on it: with the
dot on line 2 of 5 the frame keeps lines 0-2, while the centered window
is lines 1-3. (3) With the dot on line 0, `trimToLines(-2, 1)` reslices
with a negative bound: a panic, so no frame exists at all. -/
theorem c6_counterexample :
    ((composeFrame 4
        ⟨4, 1, 0, false,
         [[⟨'a', 1, ""⟩], [⟨'b', 1, ""⟩], [⟨'c', 1, ""⟩], [⟨'d', 1, ""⟩], [⟨'e', 1, ""⟩]],
         ⟨4, 0⟩⟩
        none none none (some ⟨⟨["f"], 0⟩, ⟨[], 0⟩⟩) 3).map
          (Option.map (fun f => f.cells.length)) ≠ some (some 3)) ∧
    ((composeFrame 4
        ⟨4, 1, 0, false,
         [[⟨'a', 1, ""⟩], [⟨'b', 1, ""⟩], [⟨'c', 1, ""⟩], [⟨'d', 1, ""⟩], [⟨'e', 1, ""⟩]],
         ⟨2, 0⟩⟩
        none none none none 3).map (Option.map (fun f => f.cells)) ≠
      some (some (centeredWindowSpec
        [[⟨'a', 1, ""⟩], [⟨'b', 1, ""⟩], [⟨'c', 1, ""⟩], [⟨'d', 1, ""⟩], [⟨'e', 1, ""⟩]]
        2 3))) ∧
    (composeFrame 4
        ⟨4, 1, 0, false,
         [[⟨'a', 1, ""⟩], [⟨'b', 1, ""⟩], [⟨'c', 1, ""⟩], [⟨'d', 1, ""⟩], [⟨'e', 1, ""⟩]],
         ⟨0, 0⟩⟩
        none none none none 3 = none) := by decide

/-- C6 (amended): whenever the terminal height is at least 1 but smaller
than the input-line buffer's own line count, the logical cursor's line
index is at least `height - 1` and in range, and no navigation context is
active, the composed frame contains exactly `height` lines, namely the
window of the input-line buffer's lines ending at the logical cursor's
line (so the cursor's line is the frame's last line), and the mode, tips,
and listing buffers are all dropped. -/
theorem c6_frame_trimming (bufLine : buffer) (bufMode bufTips : Option buffer)
    (comp : Option compState) (width height : Int)
    (h1 : 1 ≤ height) (h2 : height < (bufLine.cells.length : Int))
    (h3 : height ≤ bufLine.dot.line + 1)
    (h4 : bufLine.dot.line < (bufLine.cells.length : Int)) :
    ∃ f, composeFrame width bufLine bufMode bufTips comp none height = some (some f) ∧
      f.cells = (bufLine.cells.drop (bufLine.dot.line + 1 - height).toNat).take
        height.toNat ∧
      (f.cells.length : Int) = height ∧
      f.cells.getLast? = bufLine.cells[bufLine.dot.line.toNat]? ∧
      f.dot = ⟨height - 1, bufLine.dot.col⟩ := by
  have hm := optLines_nonneg bufMode
  have ht := optLines_nonneg bufTips
  have hL1 : linesOf [some bufLine, bufMode, bufTips] =
      (bufLine.cells.length : Int) + optLines bufMode + optLines bufTips := by
    simp only [linesOf, List.foldl_cons, List.foldl_nil, optLines]
    ring
  have hL2 : linesOf [some bufLine, bufTips] =
      (bufLine.cells.length : Int) + optLines bufTips := by
    simp only [linesOf, List.foldl_cons, List.foldl_nil, optLines]
    ring
  have htrim : bufLine.trimToLines (bufLine.dot.line + 1 - height) (bufLine.dot.line + 1) =
      some ⟨bufLine.width, bufLine.col, bufLine.indent, bufLine.newlineWhenFull,
        (bufLine.cells.drop (bufLine.dot.line + 1 - height).toNat).take height.toNat,
        ⟨height - 1, bufLine.dot.col⟩⟩ := by
    unfold buffer.trimToLines
    rw [if_pos (by omega)]
    have e1 : bufLine.dot.line + 1 - (bufLine.dot.line + 1 - height) = height := by ring
    have e2 : bufLine.dot.line - (bufLine.dot.line + 1 - height) = height - 1 := by ring
    rw [e1, e2]
  have hlist : renderListing width comp none 0 = none := by
    simp [renderListing]
  have hlen : ((bufLine.cells.drop (bufLine.dot.line + 1 - height).toNat).take
      height.toNat).length = height.toNat := by
    rw [List.length_take, List.length_drop]
    omega
  refine ⟨⟨bufLine.width, bufLine.col, bufLine.indent, bufLine.newlineWhenFull,
      (bufLine.cells.drop (bufLine.dot.line + 1 - height).toNat).take height.toNat,
      ⟨height - 1, bufLine.dot.col⟩⟩, ?_, rfl, ?_, ?_, rfl⟩
  · simp only [composeFrame]
    rw [if_neg (by rw [hL1]; omega), if_neg (by rw [hL2]; omega), if_neg (by omega),
        if_pos h1, htrim, hlist]
    simp [composeBufs, extendGo]
  · simp only
    rw [hlen]
    omega
  · simp only
    rw [List.getLast?_eq_getElem?, hlen, List.getElem?_take, if_pos (by omega),
        List.getElem?_drop]
    have hidx : (bufLine.dot.line + 1 - height).toNat + (height.toNat - 1) =
        bufLine.dot.line.toNat := by omega
    rw [hidx]

/-- Witness for C6's amended theorem: a 3-line input buffer with the dot on
its last line, composed at height 2, keeps exactly lines 1 and 2. -/
theorem c6_frame_trimming_witness :
    ∃ f, composeFrame 4
        ⟨4, 1, 0, false, [[⟨'a', 1, ""⟩], [⟨'b', 1, ""⟩], [⟨'c', 1, ""⟩]], ⟨2, 0⟩⟩
        none none none none 2 = some (some f) ∧
      f.cells = [[⟨'b', 1, ""⟩], [⟨'c', 1, ""⟩]] ∧
      (f.cells.length : Int) = 2 ∧
      f.cells.getLast? = some [⟨'c', 1, ""⟩] ∧
      f.dot = ⟨1, 0⟩ :=
  c6_frame_trimming
    ⟨4, 1, 0, false, [[⟨'a', 1, ""⟩], [⟨'b', 1, ""⟩], [⟨'c', 1, ""⟩]], ⟨2, 0⟩⟩
    none none none 4 2 (by decide) (by decide) (by decide) (by decide)
